import Mathlib

/-!
Verification development for the krishna-tech-solutions repository.

Shallow embedding of the parts of the code the claims talk about:
* the credential obfuscation helpers of the client-deployment function
  (`encryptServiceRoleKey` / `decryptServiceRoleKey`, built on `btoa` / `atob`),
* the appointments table of migration 20251223024310 with its unconditional
  unique constraint on (appointment_date, appointment_time), the booking
  submission path of BookingCalendar.tsx and the admin status-change operation
  of AdminAppointments.tsx,
* the coupons table with its row-level-security SELECT policies and the
  coupon application / price display logic of BookingCalendar.tsx,
* the client-deployment serverless function (save / get / test / init /
  delete credential actions and their audit logging),
* the delete-user serverless function.

Machine numbers are modelled as Nat / Int / Rat; JavaScript strings as Lean
`String` (a list of characters); database rows as Lean structures and tables
as lists of rows.  Fallible operations return `Except` or are case-split on
an explicit environment record describing the outcomes of external calls.
-/

namespace KrishnaTech

/-! ## Base64 and the credential obfuscation (client-deployment function)

`btoa` encodes a Latin-1 string (each code unit < 256) into base64; `atob`
decodes.  The source's `encryptServiceRoleKey` is `btoa` followed by
character reversal, `decryptServiceRoleKey` is character reversal followed
by `atob`.  We model the byte string as `List Nat` with every entry < 256
(`btoa` throws on larger code units). -/

def base64Alphabet : List Char :=
  "ABCDEFGHIJKLMNOPQRSTUVWXYZabcdefghijklmnopqrstuvwxyz0123456789+/".toList

/-- The base64 character for a 6-bit value. -/
def b64Chr (n : Nat) : Char := base64Alphabet.getD n 'A'

/-- The 6-bit value of a base64 character (64 if not in the alphabet). -/
def b64Val (c : Char) : Nat := base64Alphabet.indexOf c

/-- `btoa`: encode a byte list into base64 characters, with `=` padding. -/
def b64EncodeBytes : List Nat → List Char
  | [] => []
  | [a] => [b64Chr (a / 4), b64Chr (a % 4 * 16), '=', '=']
  | [a, b] => [b64Chr (a / 4), b64Chr (a % 4 * 16 + b / 16), b64Chr (b % 16 * 4), '=']
  | a :: b :: c :: rest =>
      b64Chr (a / 4) :: b64Chr (a % 4 * 16 + b / 16) ::
      b64Chr (b % 16 * 4 + c / 64) :: b64Chr (c % 64) :: b64EncodeBytes rest

/-- `atob`: decode base64 characters back into bytes. -/
def b64DecodeChars : List Char → List Nat
  | c1 :: c2 :: c3 :: c4 :: rest =>
      let v1 := b64Val c1
      let v2 := b64Val c2
      if c3 = '=' then
        [v1 * 4 + v2 / 16]
      else
        let v3 := b64Val c3
        if c4 = '=' then
          [v1 * 4 + v2 / 16, v2 % 16 * 16 + v3 / 4]
        else
          (v1 * 4 + v2 / 16) :: (v2 % 16 * 16 + v3 / 4) ::
          (v3 % 4 * 64 + b64Val c4) :: b64DecodeChars rest
  | _ => []

/-- `encryptServiceRoleKey` (part_000 lines 10-14): base64 encode, then
reverse the character sequence. -/
def encryptServiceRoleKey (key : List Nat) : List Char :=
  (b64EncodeBytes key).reverse

/-- `decryptServiceRoleKey` (part_000 lines 16-19): reverse the character
sequence, then base64 decode. -/
def decryptServiceRoleKey (encrypted : List Char) : List Nat :=
  b64DecodeChars encrypted.reverse

/-- The obfuscation applied to a JavaScript string key, as stored in the
`supabase_service_role_key_encrypted` column. -/
def encryptServiceRoleKeyStr (key : String) : String :=
  String.mk (encryptServiceRoleKey (key.toList.map (fun c => c.toNat)))

/-! ## JavaScript string helpers used by the embedded components -/

/-- JavaScript `s.toUpperCase()`. -/
def jsToUpper (s : String) : String := String.mk (s.toList.map Char.toUpper)

/-- JavaScript `s.trim()`. -/
def jsTrim (s : String) : String :=
  String.mk (((s.toList.dropWhile Char.isWhitespace).reverse.dropWhile
    Char.isWhitespace).reverse)

/-- JavaScript `s.slice(0, 5)`, used on `appointment_time` values. -/
def sliceFive (s : String) : String := String.mk (s.toList.take 5)

/-- JavaScript `id.split("-")[0]`: the characters before the first dash. -/
def beforeFirstDash (s : String) : String :=
  String.mk (s.toList.takeWhile (fun c => c ≠ '-'))

/-- The short public booking identifier: `id.split("-")[0].toUpperCase()`
(BookingCalendar.tsx line 236). -/
def shortBookingId (id : String) : String := jsToUpper (beforeFirstDash id)

/-- Character class `[^\s@]` of the email regex. -/
def emailClassChar (c : Char) : Bool := !c.isWhitespace && c ≠ '@'

/-- Whether a character list has a `.` that is neither its first nor its
last character (so the regex fragment `[^\s@]+\.[^\s@]+` can split there). -/
def hasInnerDot (l : List Char) : Bool :=
  (List.range l.length).any
    (fun j => decide (0 < j) && decide (j + 1 < l.length) && (l.getD j ' ' == '.'))

/-- `validateEmail` (BookingCalendar.tsx lines 178-181): the regex
`^[^\s@]+@[^\s@]+\.[^\s@]+$`.  A string matches exactly when it splits at
its unique `@` into a nonempty local part over `[^\s@]` and a domain over
`[^\s@]` containing a dot with at least one character on each side. -/
def validateEmail (email : String) : Bool :=
  let cs := email.toList
  let localPart := cs.takeWhile (fun c => c ≠ '@')
  match cs.dropWhile (fun c => c ≠ '@') with
  | [] => false
  | _ :: domain =>
      !localPart.isEmpty && localPart.all emailClassChar &&
      domain.all emailClassChar && hasInnerDot domain

/-! ## Appointments: schema, constraint and operations

Migration 20251223024310 creates `appointments` with
`UNIQUE(appointment_date, appointment_time)` over all rows (no status
filter) and `CHECK (status IN ('pending', 'confirmed', 'cancelled'))`.
Dates and times are modelled as the strings the client sends
(`yyyy-MM-dd`, `HH:MM`); the client always inserts times from the fixed
`TIME_SLOTS` list, so no Postgres TIME normalization is modelled. -/

structure Appointment where
  id : String
  user_name : String
  user_email : String
  user_phone : Option String
  service_type : Option String
  appointment_date : String
  appointment_time : String
  notes : Option String
  status : String
  cancelled_by : Option String
  cancelled_at : Option String
  deriving Repr, DecidableEq

/-- The CHECK constraint on `status` from migration 20251223024310. -/
def statusAllowed (s : String) : Bool :=
  s == "pending" || s == "confirmed" || s == "cancelled"

/-- Whether inserting a row at `(d, t)` violates the table's unique
constraint: some existing row (of any status) occupies `(d, t)`. -/
def uniqueViolation (db : List Appointment) (d t : String) : Bool :=
  db.any (fun a => a.appointment_date == d && a.appointment_time == t)

/-- An insert into `appointments`.  The unique constraint and the status
CHECK are enforced by the store; `envFail` injects any other failure of
the insert (network, policy, ...) with its error code. -/
def dbInsert (db : List Appointment) (row : Appointment) (envFail : Option String) :
    Except String (List Appointment) :=
  if !statusAllowed row.status then .error "23514"
  else if uniqueViolation db row.appointment_date row.appointment_time then .error "23505"
  else match envFail with
    | some code => .error code
    | none => .ok (db ++ [row])

/-- A single booking insert attempt: `true` with the grown store on
success, `false` with the store unchanged on a constraint violation. -/
def bookSlot (db : List Appointment) (row : Appointment) : Bool × List Appointment :=
  match dbInsert db row none with
  | .ok db2 => (true, db2)
  | .error _ => (false, db)

/-- `fetchBookedSlots` (BookingCalendar.tsx lines 98-112): the
`appointment_time` values (first five characters) of all appointments on
the date whose status is not `cancelled`. -/
def fetchBookedSlots (db : List Appointment) (date : String) : List String :=
  (db.filter (fun a => a.appointment_date == date && !(a.status == "cancelled"))).map
    (fun a => sliceFive a.appointment_time)

/-- `handleStatusChange` (AdminAppointments.tsx lines 87-121): guarded by
the client-side `isAdmin` check, updates the row's status in place (no row
is deleted); for `cancelled` it also records the actor and timestamp.  The
store rejects a status outside the CHECK constraint. -/
def handleStatusChange (isAdmin : Bool) (adminId : Option String) (nowTs : String)
    (db : List Appointment) (id : String) (newStatus : String) : List Appointment :=
  if !isAdmin then db
  else if !statusAllowed newStatus then db
  else db.map (fun a =>
    if a.id == id then
      { a with
        status := newStatus
        cancelled_by := if newStatus == "cancelled" then adminId else a.cancelled_by
        cancelled_at := if newStatus == "cancelled" then some nowTs else a.cancelled_at }
    else a)

/-- Admin hard delete of an appointment row (the `DELETE` policy of the
migration; rows are otherwise never removed). -/
def deleteAppointment (db : List Appointment) (id : String) : List Appointment :=
  db.filter (fun a => !(a.id == id))

/-- The states of the appointments store reachable through its write
surface: public inserts (accepted by the constraint and CHECK), admin
status changes, and admin deletes. -/
inductive Reachable : List Appointment → Prop
  | empty : Reachable []
  | book (db : List Appointment) (row : Appointment) :
      Reachable db → statusAllowed row.status = true →
      uniqueViolation db row.appointment_date row.appointment_time = false →
      Reachable (db ++ [row])
  | statusChange (db : List Appointment) (adminId : Option String) (nowTs id newStatus : String) :
      Reachable db →
      Reachable (handleStatusChange true adminId nowTs db id newStatus)
  | delete (db : List Appointment) (id : String) :
      Reachable db → Reachable (deleteAppointment db id)

/-- The storage-level guarantee of the unique constraint: no two rows of
the store, of any status, share `(appointment_date, appointment_time)`. -/
def SlotUnique (db : List Appointment) : Prop :=
  db.Pairwise (fun a b =>
    ¬(a.appointment_date = b.appointment_date ∧ a.appointment_time = b.appointment_time))

/-- The spec's invariant: no two non-cancelled rows share
`(appointment_date, appointment_time)`. -/
def NoDoubleBooking (db : List Appointment) : Prop :=
  db.Pairwise (fun a b =>
    a.status = "cancelled" ∨ b.status = "cancelled" ∨
    ¬(a.appointment_date = b.appointment_date ∧ a.appointment_time = b.appointment_time))

/-! ## The booking submission flow (`handleSubmit`, BookingCalendar.tsx) -/

structure FormData where
  name : String
  email : String
  phone : String
  service : String
  notes : String
  deriving Repr, DecidableEq

/-- Environment of one submission: an injected non-constraint insert
failure, the fresh row id, and whether each notification call throws. -/
structure SubmitEnv where
  envFail : Option String
  newId : String
  emailCallFails : Bool
  smsCallFails : Bool
  deriving Repr, DecidableEq

/-- The observable outcome of `handleSubmit`: the store afterwards, the
step the UI moves to, the toast title shown, whether and with what result
the taken slots were re-read, whether each notification call was
attempted and how it ended, and the short booking id. -/
structure SubmitResult where
  db : List Appointment
  step : String
  toastTitle : String
  refetchedSlots : Option (List String)
  emailAttempted : Bool
  emailCallSucceeded : Bool
  smsAttempted : Bool
  smsCallSucceeded : Bool
  bookingId : Option String
  deriving Repr, DecidableEq

/-- The row built by the insert of `handleSubmit` (lines 204-213):
`status` is always `"pending"`, empty optional fields become null. -/
def mkRow (newId d t : String) (fd : FormData) : Appointment :=
  { id := newId
    user_name := fd.name
    user_email := fd.email
    user_phone := if fd.phone == "" then none else some fd.phone
    service_type := if fd.service == "" then none else some fd.service
    appointment_date := d
    appointment_time := t
    notes := if fd.notes == "" then none else some fd.notes
    status := "pending"
    cancelled_by := none
    cancelled_at := none }

/-- `handleSubmit` (BookingCalendar.tsx lines 183-281).  Field checks and
email validation first; then the single insert; on error code `23505` the
slot-unavailable toast, a return to the time step and a re-read of the
taken slots; on any other error the generic failure toast; on success both
notification calls inside their own try/catch (failures only logged), then
the success step. -/
def handleSubmit (db : List Appointment) (selectedDate selectedTime : Option String)
    (fd : FormData) (env : SubmitEnv) : SubmitResult :=
  match selectedDate, selectedTime with
  | some d, some t =>
      if fd.name == "" || fd.email == "" then
        ⟨db, "details", "Missing Information", none, false, false, false, false, none⟩
      else if !validateEmail fd.email then
        ⟨db, "details", "Invalid Email", none, false, false, false, false, none⟩
      else
        match dbInsert db (mkRow env.newId d t fd) env.envFail with
        | .error code =>
            if code == "23505" then
              ⟨db, "time", "Slot Unavailable", some (fetchBookedSlots db d),
                false, false, false, false, none⟩
            else
              ⟨db, "details", "Booking Failed", none, false, false, false, false, none⟩
        | .ok db2 =>
            ⟨db2, "success", "Appointment Booked!", none,
              true, !env.emailCallFails, true, !env.smsCallFails,
              some (shortBookingId env.newId)⟩
  | _, _ => ⟨db, "details", "Missing Information", none, false, false, false, false, none⟩

/-- Sequential processing of a batch of booking submissions against the
store (the store serializes the concurrent inserts; each attempt either
commits or receives the constraint violation). -/
def processSubmissions : List Appointment → List Appointment → List Bool × List Appointment
  | db, [] => ([], db)
  | db, row :: rows =>
      let first := bookSlot db row
      let rest := processSubmissions first.2 rows
      (first.1 :: rest.1, rest.2)

/-- No row of the store occupies the slot `(d, t)` (comparison on the
displayed five-character time, as in the taken-slots read). -/
def slotFree (db : List Appointment) (d t : String) : Prop :=
  ∀ a ∈ db, ¬(a.appointment_date = d ∧ sliceFive a.appointment_time = sliceFive t)

/-! ## Coupons: schema, row-level security and the apply/price logic

Migration part_005 creates `coupons` with `code` unique,
`CHECK (discount_percent > 0 AND discount_percent <= 100)`, an `is_active`
flag and an optional `expires_at`.  Two SELECT policies apply (policies
are disjunctive): admins see every row; anyone sees rows with
`is_active = true AND (expires_at IS NULL OR expires_at > now())`.
Timestamps are modelled as naturals. -/

structure Coupon where
  id : String
  code : String
  name : String
  discount_percent : Nat
  is_active : Bool
  expires_at : Option Nat
  deriving Repr, DecidableEq

/-- The policy `Anyone can view active coupons` (part_005 lines 33-36). -/
def couponPubliclyVisible (now : Nat) (c : Coupon) : Bool :=
  c.is_active && (c.expires_at.isNone || now < c.expires_at.getD 0)

/-- Which coupon rows a SELECT by the booking page can return: the public
policy, or any row when the caller holds the admin role (`Admins can view
all coupons`). -/
def couponVisibleTo (callerIsAdmin : Bool) (now : Nat) (c : Coupon) : Bool :=
  callerIsAdmin || couponPubliclyVisible now c

/-- The outcome of `handleApplyCoupon`. -/
inductive ApplyResult where
  | applied (c : Coupon)
  | rejected (msg : String)
  deriving Repr, DecidableEq

/-- `handleApplyCoupon` (BookingCalendar.tsx lines 127-159): empty input is
rejected; otherwise the query selects the visible rows whose `code` equals
the trimmed upper-cased input and whose `is_active` is true;
`maybeSingle()` yields the coupon when exactly one row matches, null (shown
as invalid-or-expired) when none does, and an error (caught as a generic
failure) when several do. -/
def handleApplyCoupon (callerIsAdmin : Bool) (now : Nat) (coupons : List Coupon)
    (couponInput : String) : ApplyResult :=
  if jsTrim couponInput == "" then .rejected "Please enter a coupon code"
  else
    match coupons.filter (fun c =>
        couponVisibleTo callerIsAdmin now c &&
        c.code == jsToUpper (jsTrim couponInput) && c.is_active) with
    | [c] => .applied c
    | [] => .rejected "Invalid or expired coupon code"
    | _ => .rejected "Failed to apply coupon"

/-- JavaScript `Math.round` on a nonnegative rational: round half up. -/
def jsRound (x : ℚ) : ℤ := Int.floor (x + 1 / 2)

/-- `getDiscountedPrice` (BookingCalendar.tsx lines 172-176): the selected
service's price, reduced by the applied coupon's percentage and rounded. -/
def getDiscountedPrice (price : ℚ) (appliedCoupon : Option Coupon) : ℚ :=
  match appliedCoupon with
  | none => price
  | some c => (jsRound (price * (1 - (c.discount_percent : ℚ) / 100)) : ℚ)

/-- Modelled from the spec's words for comparison: the displayed total for
price `p` and discount percent `d` is `round(p * (1 - d/100))`. -/
def specDiscountedTotal (p : ℚ) (d : Nat) : ℚ :=
  (jsRound (p * (1 - (d : ℚ) / 100)) : ℚ)

/-- The unique row of the coupons table carrying a given code, if any. -/
def couponRow (coupons : List Coupon) (code : String) : Option Coupon :=
  coupons.find? (fun c => c.code == code)

/-- Table well-formedness from the unique constraint on `code`. -/
def CouponCodesUnique (coupons : List Coupon) : Prop :=
  coupons.Pairwise (fun a b => a.code ≠ b.code)

/-- Claim C4 as stated, over the embedded booking flow: whatever the
caller's role and the clock, if the entered code's row is inactive or past
its expiry it is not applied, and if it is active and unexpired it is
applied with the displayed total `round(p * (1 - d/100))`. -/
def C4Statement : Prop :=
  ∀ (callerIsAdmin : Bool) (now : Nat) (coupons : List Coupon) (input : String)
    (c : Coupon),
    CouponCodesUnique coupons →
    couponRow coupons (jsToUpper (jsTrim input)) = some c →
    ((c.is_active = false ∨ (∃ e, c.expires_at = some e ∧ e < now)) →
      ∀ c2, handleApplyCoupon callerIsAdmin now coupons input ≠ .applied c2) ∧
    ((c.is_active = true ∧ (∀ e, c.expires_at = some e → now < e)) →
      handleApplyCoupon callerIsAdmin now coupons input = .applied c ∧
      ∀ p : ℚ, getDiscountedPrice p (some c) = specDiscountedTotal p c.discount_percent)

/-! ## Client-deployment function (unnamed/part_000)

The serverless handler authenticates the caller, verifies the
`super_admin` role, then dispatches on `action`.  The singleton
`client_supabase_credentials` row and the append-only `admin_audit_logs`
table form the state.  External effects (the probe query of
`test_connection`, exceptions thrown inside the try blocks, fresh row
metadata) are supplied by environment records; the remote project touched
by `initialize_database`'s DDL loop is outside the state (statement-level
failures are logged and skipped and change nothing here). -/

structure ClientCredentials where
  id : String
  supabase_url : String
  supabase_anon_key : String
  supabase_service_role_key_encrypted : String
  connection_status : String
  db_initialized : Bool
  last_connection_test : Option String
  last_initialized_at : Option String
  created_at : String
  updated_at : String
  deriving Repr, DecidableEq

structure AuditEntry where
  user_id : String
  action : String
  deriving Repr, DecidableEq

structure DeployState where
  creds : Option ClientCredentials
  audit : List AuditEntry
  deriving Repr, DecidableEq

def initialDeployState : DeployState := ⟨none, []⟩

/-- Authentication context of one request: header presence, the user the
token resolves to, and the `user_roles` super-admin lookup. -/
structure AuthCtx where
  hasAuthHeader : Bool
  tokenUser : Option String
  isSuperAdmin : Bool
  deriving Repr, DecidableEq

def authOK (ctx : AuthCtx) : Bool :=
  ctx.hasAuthHeader && ctx.tokenUser.isSome && ctx.isSuperAdmin

def ctxUser (ctx : AuthCtx) : String := ctx.tokenUser.getD ""

/-- Metadata of a freshly inserted credentials row (`gen_random_uuid()`,
`now()`). -/
structure RowMeta where
  id : String
  created_at : String
  updated_at : String
  deriving Repr, DecidableEq

/-- The error object of the probe query of `test_connection`. -/
structure TestErr where
  message : String
  code : String
  deriving Repr, DecidableEq

/-- Environment of `test_connection`: whether the try block throws before
reaching the status update (decrypt / client construction / query throw),
the probe query's error if it completes, and the clock. -/
structure TestEnv where
  throws : Bool
  queryError : Option TestErr
  now : String
  deriving Repr, DecidableEq

/-- Environment of `initialize_database`: whether the try block throws
before reaching the status update (decrypt or a network-level fetch
failure in the DDL loop), and the clock. -/
structure InitEnv where
  throws : Bool
  now : String
  deriving Repr, DecidableEq

/-- Naive substring test, modelling JavaScript `message.includes(pat)`. -/
def charsStartWith : List Char → List Char → Bool
  | _, [] => true
  | [], _ :: _ => false
  | a :: as, b :: bs => a == b && charsStartWith as bs

def charsHaveSub : List Char → List Char → Bool
  | l, pat =>
    match l with
    | [] => pat.isEmpty
    | _ :: rest => charsStartWith l pat || charsHaveSub rest pat

def strContains (s pat : String) : Bool := charsHaveSub s.toList pat.toList

/-- The connection-success classification of `test_connection` (part_000
lines 194-199): no error, or an error whose message or code indicates a
merely missing table. -/
def connectionSuccess (e : Option TestErr) : Bool :=
  match e with
  | none => true
  | some te =>
      strContains te.message "does not exist" || strContains te.message "schema cache" ||
      strContains te.message "Could not find" || te.code == "42P01" || te.code == "PGRST200"

inductive DeployAction where
  | save (url anonKey serviceKey : String) (meta : RowMeta)
  | getCreds
  | testConn (env : TestEnv)
  | initDb (env : InitEnv)
  | deleteCreds
  | invalidAction
  deriving Repr, DecidableEq

/-- The columns named by `get_credentials`' select (part_000 line 148),
paired with their values; the encrypted service-role key column is not
among them. -/
def selectedColumns (c : ClientCredentials) : List (String × String) :=
  [("id", c.id),
   ("supabase_url", c.supabase_url),
   ("supabase_anon_key", c.supabase_anon_key),
   ("connection_status", c.connection_status),
   ("db_initialized", if c.db_initialized then "true" else "false"),
   ("last_connection_test", c.last_connection_test.getD "null"),
   ("last_initialized_at", c.last_initialized_at.getD "null"),
   ("created_at", c.created_at),
   ("updated_at", c.updated_at)]

/-- All columns of the `client_supabase_credentials` table. -/
def clientCredentialsColumns : List String :=
  ["id", "supabase_url", "supabase_anon_key", "supabase_service_role_key_encrypted",
   "connection_status", "db_initialized", "last_connection_test", "last_initialized_at",
   "created_at", "updated_at"]

inductive RespBody where
  | err (msg : String)
  | okMsg (msg : String)
  | credsView (fields : Option (List (String × String)))
  deriving Repr, DecidableEq

structure Response where
  status : Nat
  body : RespBody
  deriving Repr, DecidableEq

/-- The `(field, value)` pairs a response exposes. -/
def respFields (r : Response) : List (String × String) :=
  match r.body with
  | .credsView (some fields) => fields
  | _ => []

/-- `logAudit` (part_000 lines 22-38): append one row to
`admin_audit_logs` (its own insert failures are swallowed). -/
def logAudit (st : DeployState) (userId action : String) : DeployState :=
  { st with audit := st.audit ++ [⟨userId, action⟩] }

/-- `save_credentials` (part_000 lines 101-143): reject missing params,
else replace the singleton row by a fresh one with status `not_tested`
and `db_initialized = false`, and log the audit row. -/
def saveCredentialsAction (uid : String) (st : DeployState)
    (url anonKey serviceKey : String) (meta : RowMeta) : Response × DeployState :=
  if url == "" || anonKey == "" || serviceKey == "" then
    (⟨400, .err "All credentials are required"⟩, st)
  else
    let row : ClientCredentials :=
      { id := meta.id
        supabase_url := url
        supabase_anon_key := anonKey
        supabase_service_role_key_encrypted := encryptServiceRoleKeyStr serviceKey
        connection_status := "not_tested"
        db_initialized := false
        last_connection_test := none
        last_initialized_at := none
        created_at := meta.created_at
        updated_at := meta.updated_at }
    (⟨200, .okMsg "Credentials saved successfully"⟩,
      logAudit { st with creds := some row } uid "SAVE_CLIENT_CREDENTIALS")

/-- `get_credentials` (part_000 lines 145-163): return the selected
columns of the singleton row (or null); no audit row is written. -/
def getCredentialsAction (st : DeployState) : Response × DeployState :=
  (⟨200, .credsView (st.creds.map selectedColumns)⟩, st)

/-- `test_connection` (part_000 lines 165-239). -/
def testConnectionAction (uid : String) (st : DeployState) (env : TestEnv) :
    Response × DeployState :=
  match st.creds with
  | none => (⟨400, .err "No credentials found. Please save credentials first."⟩, st)
  | some creds =>
      if env.throws then
        (⟨500, .err "Connection test failed"⟩,
          { st with creds := some { creds with
              connection_status := "failed", last_connection_test := some env.now } })
      else
        let ok := connectionSuccess env.queryError
        let st2 : DeployState :=
          { st with creds := some { creds with
              connection_status := if ok then "connected" else "failed"
              last_connection_test := some env.now } }
        let st3 := logAudit st2 uid "TEST_CLIENT_CONNECTION"
        if ok then (⟨200, .okMsg "Connection successful!"⟩, st3)
        else (⟨400, .err "Connection failed"⟩, st3)

/-- `initialize_database` (part_000 lines 241-438): guarded on stored
credentials with `connection_status = 'connected'`; the DDL loop only
touches the remote project; on completion `db_initialized` is set and an
audit row written; an exception still writes the audit row (in the catch)
but leaves the row unchanged. -/
def initDatabaseAction (uid : String) (st : DeployState) (env : InitEnv) :
    Response × DeployState :=
  match st.creds with
  | none => (⟨400, .err "No credentials found"⟩, st)
  | some creds =>
      if !(creds.connection_status == "connected") then
        (⟨400, .err "Please test connection first"⟩, st)
      else if env.throws then
        (⟨500, .err "Database initialization failed"⟩,
          logAudit st uid "INITIALIZE_CLIENT_DATABASE")
      else
        let st2 : DeployState :=
          { st with creds := some { creds with
              db_initialized := true, last_initialized_at := some env.now } }
        (⟨200, .okMsg "Database structure initialized"⟩,
          logAudit st2 uid "INITIALIZE_CLIENT_DATABASE")

/-- `delete_credentials` (part_000 lines 440-463). -/
def deleteCredentialsAction (uid : String) (st : DeployState) : Response × DeployState :=
  (⟨200, .okMsg "Credentials deleted"⟩, logAudit { st with creds := none } uid
    "DELETE_CLIENT_CREDENTIALS")

/-- The `switch (action)` of the handler (part_000 lines 100-470). -/
def deployDispatch (uid : String) (st : DeployState) : DeployAction → Response × DeployState
  | .save url anonKey serviceKey meta => saveCredentialsAction uid st url anonKey serviceKey meta
  | .getCreds => getCredentialsAction st
  | .testConn env => testConnectionAction uid st env
  | .initDb env => initDatabaseAction uid st env
  | .deleteCreds => deleteCredentialsAction uid st
  | .invalidAction => (⟨400, .err "Invalid action"⟩, st)

/-- The full handler (part_000 lines 56-479): CORS aside, authenticate,
verify the super-admin role, then dispatch on the action. -/
def clientDeployment (ctx : AuthCtx) (st : DeployState) (act : DeployAction) :
    Response × DeployState :=
  if !ctx.hasAuthHeader then (⟨401, .err "No authorization header"⟩, st)
  else
    match ctx.tokenUser with
    | none => (⟨401, .err "Invalid token"⟩, st)
    | some uid =>
        if !ctx.isSuperAdmin then (⟨403, .err "Super admin access required"⟩, st)
        else deployDispatch uid st act

/-- The audit action name of each action. -/
def auditName : DeployAction → String
  | .save _ _ _ _ => "SAVE_CLIENT_CREDENTIALS"
  | .testConn _ => "TEST_CLIENT_CONNECTION"
  | .initDb _ => "INITIALIZE_CLIENT_DATABASE"
  | .deleteCreds => "DELETE_CLIENT_CREDENTIALS"
  | _ => ""

/-- Modelled from the amended claim's words: which authenticated requests
write an audit row.  `get_credentials` never does; `test_connection` does
unless its try block throws; the others do whenever they pass their
validation guards. -/
def writesAudit (st : DeployState) : DeployAction → Bool
  | .save url anonKey serviceKey _ =>
      !(url == "" || anonKey == "" || serviceKey == "")
  | .getCreds => false
  | .testConn env => st.creds.isSome && !env.throws
  | .initDb _ =>
      match st.creds with
      | some c => c.connection_status == "connected"
      | none => false
  | .deleteCreds => true
  | .invalidAction => false

/-- Claim C5 as stated: every one of the five actions, whenever it does
not fail with an authorization or validation error (status 400/401/403),
writes exactly one audit-log row. -/
def C5Statement : Prop :=
  ∀ (ctx : AuthCtx) (st : DeployState) (act : DeployAction),
    act ≠ .invalidAction →
    (clientDeployment ctx st act).1.status ≠ 400 →
    (clientDeployment ctx st act).1.status ≠ 401 →
    (clientDeployment ctx st act).1.status ≠ 403 →
    (clientDeployment ctx st act).2.audit.length = st.audit.length + 1

/-- The guard `initialize_database` checks before doing anything: stored
credentials with `connection_status = 'connected'`. -/
def initGuard (st : DeployState) : Bool :=
  match st.creds with
  | some c => c.connection_status == "connected"
  | none => false

/-- Running a request trace against the deployment state from empty. -/
def runDeploy (acts : List (AuthCtx × DeployAction)) : DeployState :=
  acts.foldl (fun st x => (clientDeployment x.1 st x.2).2) initialDeployState

/-- Scanning a trace backwards (most recent request first): a successful
`test_connection` occurs before any credential save.  Requests that fail
authentication are transparent. -/
def testedSinceSave : List (AuthCtx × DeployAction) → Bool
  | [] => false
  | (ctx, act) :: rest =>
      if authOK ctx then
        match act with
        | .save url anonKey serviceKey _ =>
            if url == "" || anonKey == "" || serviceKey == "" then testedSinceSave rest
            else false
        | .testConn env =>
            if !env.throws && connectionSuccess env.queryError then true
            else testedSinceSave rest
        | _ => testedSinceSave rest
      else testedSinceSave rest

/-! ## Delete-user function (supabase/functions/delete-user/index.ts)

State: the per-user rows of `sessions`, `user_permissions`, `user_roles`,
`profiles` (each kept as the list of owning user ids) and the auth
identities.  The caller context carries the header, the token's user and
the single-row role lookup. -/

structure UserDB where
  sessions : List String
  user_permissions : List String
  user_roles : List String
  profiles : List String
  authUsers : List String
  deriving Repr, DecidableEq

structure DeleteCtx where
  hasAuthHeader : Bool
  tokenUser : Option String
  roleRow : Option String
  deriving Repr, DecidableEq

/-- The delete-user handler (index.ts lines 9-128).  `authDeleteFails`
injects a failure of the final `auth.admin.deleteUser` call (the four
table deletions have already happened then). -/
def deleteUserHandler (ctx : DeleteCtx) (bodyUserId : Option String)
    (authDeleteFails : Bool) (db : UserDB) : Nat × UserDB :=
  if !ctx.hasAuthHeader then (401, db)
  else
    match ctx.tokenUser with
    | none => (401, db)
    | some caller =>
        match ctx.roleRow with
        | none => (403, db)
        | some role =>
            if !(role == "admin" || role == "super_admin") then (403, db)
            else
              match bodyUserId with
              | none => (400, db)
              | some userId =>
                  if userId == "" then (400, db)
                  else if userId == caller then (400, db)
                  else
                    let db2 : UserDB :=
                      { sessions := db.sessions.filter (fun u => !(u == userId))
                        user_permissions := db.user_permissions.filter (fun u => !(u == userId))
                        user_roles := db.user_roles.filter (fun u => !(u == userId))
                        profiles := db.profiles.filter (fun u => !(u == userId))
                        authUsers := db.authUsers }
                    if authDeleteFails then (500, db2)
                    else (200, { db2 with authUsers := db2.authUsers.filter (fun u => !(u == userId)) })

/-- Claim C2 as stated: in every reachable state no two non-cancelled
rows share a slot, and of any batch of submissions for one slot exactly
one insert succeeds (the rest receiving the slot-unavailable outcome) and
a subsequent taken-slots read for the date contains the winning time
exactly once. -/
def C2Statement : Prop :=
  (∀ db, Reachable db → NoDoubleBooking db) ∧
  (∀ (db : List Appointment) (d t : String) (subs : List Appointment),
    Reachable db → subs ≠ [] →
    (∀ r ∈ subs, r.appointment_date = d ∧ r.appointment_time = t ∧ r.status = "pending") →
    (processSubmissions db subs).1.count true = 1 ∧
    (fetchBookedSlots (processSubmissions db subs).2 d).count (sliceFive t) = 1)

/-! ## Concrete fixtures used by closed theorems -/

def exForm1 : FormData := ⟨"Asha", "asha@example.com", "", "", ""⟩

def exForm2 : FormData := ⟨"Ravi", "ravi@example.com", "", "", ""⟩

/-- A booking row for the slot (2026-01-05, 10:00). -/
def exBooking1 : Appointment := mkRow "11111111-aaaa" "2026-01-05" "10:00" exForm1

/-- A second booking row for the same slot. -/
def exBooking2 : Appointment := mkRow "22222222-bbbb" "2026-01-05" "10:00" exForm2

/-- The store after booking `exBooking1` and then cancelling it through
the admin status-change operation (the row is kept, status `cancelled`). -/
def exCancelledDb : List Appointment :=
  handleStatusChange true (some "admin-1") "2026-01-02T09:00:00Z" [exBooking1]
    exBooking1.id "cancelled"

def exCtx : AuthCtx := ⟨true, some "u1", true⟩

def exMeta : RowMeta := ⟨"cred-1", "t0", "t0"⟩

/-- A trace that saves credentials and passes a connection test. -/
def exTrace : List (AuthCtx × DeployAction) :=
  [(exCtx, .save "https://client.example.co" "anon-key" "service-key" exMeta),
   (exCtx, .testConn ⟨false, none, "t1"⟩)]

/-- An active coupon whose expiry lies in the past. -/
def exExpiredCoupon : Coupon := ⟨"cp1", "SAVE10", "Festive", 10, true, some 100⟩

/-- An active, unexpired coupon. -/
def exLiveCoupon : Coupon := ⟨"cp2", "NEW20", "Welcome", 20, true, some 500⟩

/-! # Theorems -/

/-! ## Base64 helper lemmas -/

theorem b64Val_b64Chr : ∀ n, n < 64 → b64Val (b64Chr n) = n := by decide

theorem b64Chr_ne_pad : ∀ n, n < 64 → b64Chr n ≠ '=' := by decide

/-- Decoding inverts encoding on byte lists (every entry < 256, the
precondition `btoa` imposes on its input's code units). -/
theorem b64_decode_encode : ∀ (l : List Nat), (∀ x ∈ l, x < 256) →
    b64DecodeChars (b64EncodeBytes l) = l
  | [], _ => rfl
  | [a], h => by
      have ha : a < 256 := h a (by simp)
      have h1 : b64Val (b64Chr (a / 4)) = a / 4 := b64Val_b64Chr _ (by omega)
      have h2 : b64Val (b64Chr (a % 4 * 16)) = a % 4 * 16 := b64Val_b64Chr _ (by omega)
      simp [b64EncodeBytes, b64DecodeChars, h1, h2]
      omega
  | [a, b], h => by
      have ha : a < 256 := h a (by simp)
      have hb : b < 256 := h b (by simp)
      have h1 : b64Val (b64Chr (a / 4)) = a / 4 := b64Val_b64Chr _ (by omega)
      have h2 : b64Val (b64Chr (a % 4 * 16 + b / 16)) = a % 4 * 16 + b / 16 :=
        b64Val_b64Chr _ (by omega)
      have h3 : b64Val (b64Chr (b % 16 * 4)) = b % 16 * 4 := b64Val_b64Chr _ (by omega)
      have hn3 : ¬(b64Chr (b % 16 * 4) = '=') := b64Chr_ne_pad _ (by omega)
      simp [b64EncodeBytes, b64DecodeChars, h1, h2, h3, hn3]
      constructor
      · omega
      · omega
  | a :: b :: c :: rest, h => by
      have ha : a < 256 := h a (by simp)
      have hb : b < 256 := h b (by simp)
      have hc : c < 256 := h c (by simp)
      have ih := b64_decode_encode rest (fun x hx => h x (by simp [hx]))
      have h1 : b64Val (b64Chr (a / 4)) = a / 4 := b64Val_b64Chr _ (by omega)
      have h2 : b64Val (b64Chr (a % 4 * 16 + b / 16)) = a % 4 * 16 + b / 16 :=
        b64Val_b64Chr _ (by omega)
      have h3 : b64Val (b64Chr (b % 16 * 4 + c / 64)) = b % 16 * 4 + c / 64 :=
        b64Val_b64Chr _ (by omega)
      have h4 : b64Val (b64Chr (c % 64)) = c % 64 := b64Val_b64Chr _ (by omega)
      have hn3 : ¬(b64Chr (b % 16 * 4 + c / 64) = '=') := b64Chr_ne_pad _ (by omega)
      have hn4 : ¬(b64Chr (c % 64) = '=') := b64Chr_ne_pad _ (by omega)
      simp [b64EncodeBytes, b64DecodeChars, h1, h2, h3, h4, hn3, hn4, ih]
      refine ⟨by omega, by omega, by omega⟩

/-- C9: the credential obfuscation is a reversible round-trip:
`decryptServiceRoleKey (encryptServiceRoleKey k) = k` for every key whose
code units fit in a byte (the domain of `btoa`). -/
theorem C9_obfuscation_roundtrip (k : List Nat) (h : ∀ x ∈ k, x < 256) :
    decryptServiceRoleKey (encryptServiceRoleKey k) = k := by
  unfold decryptServiceRoleKey encryptServiceRoleKey
  rw [List.reverse_reverse]
  exact b64_decode_encode k h

/-- Witness for C9 at a concrete key. -/
theorem C9_obfuscation_roundtrip_witness :
    (∀ x ∈ [115, 101, 99, 114, 101, 116, 75, 101, 121], x < 256) ∧
    decryptServiceRoleKey (encryptServiceRoleKey [115, 101, 99, 114, 101, 116, 75, 101, 121]) =
      [115, 101, 99, 114, 101, 116, 75, 101, 121] :=
  ⟨by decide, C9_obfuscation_roundtrip [115, 101, 99, 114, 101, 116, 75, 101, 121] (by decide)⟩

/-! ## C1: cancelled slots and the unconditional unique constraint -/

/-- C1 evaluated: booking (2026-01-05, 10:00) succeeds; the admin
status-change marks the row `cancelled` without deleting it; the
taken-slots read then shows the slot as free; yet the re-insert for the
same slot is rejected by the unique constraint with code 23505, because
migration 20251223024310 declares `UNIQUE(appointment_date,
appointment_time)` over all rows, not only non-cancelled ones. -/
theorem C1_cancelled_slot_not_rebookable :
    bookSlot [] exBooking1 = (true, [exBooking1]) ∧
    exCancelledDb.map Appointment.status = ["cancelled"] ∧
    exCancelledDb.length = 1 ∧
    fetchBookedSlots exCancelledDb "2026-01-05" = [] ∧
    dbInsert exCancelledDb exBooking2 none = Except.error "23505" :=
  ⟨rfl, rfl, rfl, rfl, rfl⟩

/-! ## C2: the uniqueness invariant and batch submissions -/

theorem slotUnique_map (db : List Appointment) (g : Appointment → Appointment)
    (hd : ∀ a, (g a).appointment_date = a.appointment_date)
    (ht : ∀ a, (g a).appointment_time = a.appointment_time)
    (h : SlotUnique db) : SlotUnique (db.map g) := by
  rw [SlotUnique, List.pairwise_map]
  refine h.imp ?_
  intro a b hab hcon
  exact hab ⟨by rw [← hd a, ← hd b]; exact hcon.1, by rw [← ht a, ← ht b]; exact hcon.2⟩

/-- Every reachable state of the appointments store satisfies the
storage-level uniqueness (the unique constraint over all rows). -/
theorem reachable_slotUnique : ∀ {db : List Appointment}, Reachable db → SlotUnique db := by
  intro db h
  induction h with
  | empty => exact List.Pairwise.nil
  | book db row hr hs hu ih =>
      rw [SlotUnique, List.pairwise_append]
      refine ⟨ih, List.pairwise_singleton _ _, ?_⟩
      intro a ha b hb
      have hb2 : b = row := by simpa using hb
      subst hb2
      intro hcon
      have hany : db.any (fun x =>
          x.appointment_date == b.appointment_date &&
          x.appointment_time == b.appointment_time) = true := by
        rw [List.any_eq_true]
        exact ⟨a, ha, by simp [hcon.1, hcon.2]⟩
      rw [uniqueViolation] at hu
      rw [hany] at hu
      cases hu
  | statusChange db adminId nowTs id newStatus hr ih =>
      simp only [handleStatusChange, Bool.not_true, Bool.false_eq_true, if_false]
      split
      · exact ih
      · refine slotUnique_map db _ ?_ ?_ ih
        · intro a; dsimp only; split <;> rfl
        · intro a; dsimp only; split <;> rfl
  | delete db id hr ih =>
      exact List.Pairwise.sublist (List.filter_sublist db) ih

theorem slotUnique_noDouble {db : List Appointment} (h : SlotUnique db) :
    NoDoubleBooking db :=
  h.imp (fun hab => Or.inr (Or.inr hab))

theorem uniqueViolation_false_of_slotFree {db : List Appointment} {d t : String}
    (h : slotFree db d t) : uniqueViolation db d t = false := by
  rw [uniqueViolation]
  rw [List.any_eq_false]
  intro a ha
  intro hcon
  rw [Bool.and_eq_true, beq_iff_eq, beq_iff_eq] at hcon
  exact h a ha ⟨hcon.1, by rw [hcon.2]⟩

/-- When the slot is already occupied every submission in the batch
fails and the store is unchanged. -/
theorem processSubmissions_all_taken (d t : String) :
    ∀ (subs : List Appointment) (db : List Appointment),
    uniqueViolation db d t = true →
    (∀ r ∈ subs, r.appointment_date = d ∧ r.appointment_time = t) →
    processSubmissions db subs = (subs.map (fun _ => false), db)
  | [], _, _, _ => rfl
  | r :: rs, db, huv, hsubs => by
      have hr := hsubs r (by simp)
      have hfail : bookSlot db r = (false, db) := by
        unfold bookSlot dbInsert
        rw [hr.1, hr.2, huv]
        cases statusAllowed r.status <;> simp
      have ih := processSubmissions_all_taken d t rs db huv
        (fun x hx => hsubs x (by simp [hx]))
      simp [processSubmissions, hfail, ih]

/-- Claim C2 as stated fails: after booking the example slot and
cancelling it (a reachable state), a batch with a single fresh submission
for that slot has zero successful inserts, not exactly one, because the
cancelled row still blocks the unique constraint. -/
theorem C2_counterexample : ¬C2Statement := by
  intro h
  have hreach1 : Reachable [exBooking1] := by
    have h0 := Reachable.book [] exBooking1 Reachable.empty rfl rfl
    simpa using h0
  have hreach : Reachable exCancelledDb :=
    Reachable.statusChange [exBooking1] (some "admin-1") "2026-01-02T09:00:00Z"
      exBooking1.id "cancelled" hreach1
  have h2 := (h.2 exCancelledDb "2026-01-05" "10:00" [exBooking2] hreach (by simp)
    (by decide)).1
  have hz : (processSubmissions exCancelledDb [exBooking2]).1.count true = 0 := rfl
  rw [hz] at h2
  exact absurd h2 (by decide)

/-- C2 amended: in every reachable state no two non-cancelled rows share
a slot; and of any nonempty batch of pending submissions for a slot not
occupied by ANY existing row (cancelled rows included, which is what the
unconditional constraint requires), exactly one insert — the first —
succeeds, the rest receive the constraint-violation outcome, and the
taken-slots read afterwards contains the winning time exactly once. -/
theorem C2_amended :
    (∀ db, Reachable db → NoDoubleBooking db) ∧
    (∀ (db : List Appointment) (d t : String) (subs : List Appointment),
      slotFree db d t → subs ≠ [] →
      (∀ r ∈ subs, r.appointment_date = d ∧ r.appointment_time = t ∧ r.status = "pending") →
      (processSubmissions db subs).1.count true = 1 ∧
      (processSubmissions db subs).1.head? = some true ∧
      (fetchBookedSlots (processSubmissions db subs).2 d).count (sliceFive t) = 1) := by
  constructor
  · intro db h
    exact slotUnique_noDouble (reachable_slotUnique h)
  · intro db d t subs hfree hne hsubs
    cases subs with
    | nil => exact absurd rfl hne
    | cons r rs =>
      have hr := hsubs r (by simp)
      have hst : statusAllowed r.status = true := by rw [hr.2.2]; rfl
      have huv : uniqueViolation db r.appointment_date r.appointment_time = false := by
        rw [hr.1, hr.2.1]
        exact uniqueViolation_false_of_slotFree hfree
      have hwin : bookSlot db r = (true, db ++ [r]) := by
        unfold bookSlot dbInsert
        rw [huv, hst]
        simp
      have htaken : uniqueViolation (db ++ [r]) d t = true := by
        rw [uniqueViolation, List.any_eq_true]
        exact ⟨r, by simp, by simp [hr.1, hr.2.1]⟩
      have hrest := processSubmissions_all_taken d t rs (db ++ [r]) htaken
        (fun x hx => ⟨(hsubs x (by simp [hx])).1, (hsubs x (by simp [hx])).2.1⟩)
      have hps : processSubmissions db (r :: rs) =
          (true :: rs.map (fun _ => false), db ++ [r]) := by
        simp [processSubmissions, hwin, hrest]
      rw [hps]
      refine ⟨by simp [List.count_cons, List.count_replicate], rfl, ?_⟩
      have hfetch : fetchBookedSlots (db ++ [r]) d =
          fetchBookedSlots db d ++ [sliceFive r.appointment_time] := by
        rw [fetchBookedSlots, fetchBookedSlots, List.filter_append, List.map_append]
        congr 1
        simp [hr.1, hr.2.2]
      have hz : (fetchBookedSlots db d).count (sliceFive t) = 0 := by
        rw [List.count_eq_zero]
        intro hmem
        rw [fetchBookedSlots] at hmem
        simp only [List.mem_map, List.mem_filter] at hmem
        obtain ⟨a, ⟨hamem, hcond⟩, hsl⟩ := hmem
        rw [Bool.and_eq_true, beq_iff_eq] at hcond
        exact hfree a hamem ⟨hcond.1, hsl⟩
      rw [hfetch, List.count_append, hz, hr.2.1]
      simp

/-- Witness for the amended C2 at a concrete batch of two submissions on
the empty store. -/
theorem C2_amended_witness :
    NoDoubleBooking ([] : List Appointment) ∧
    (processSubmissions [] [exBooking1, exBooking2]).1.count true = 1 ∧
    (processSubmissions [] [exBooking1, exBooking2]).1.head? = some true ∧
    (fetchBookedSlots (processSubmissions [] [exBooking1, exBooking2]).2
      "2026-01-05").count (sliceFive "10:00") = 1 :=
  ⟨C2_amended.1 [] Reachable.empty,
   C2_amended.2 [] "2026-01-05" "10:00" [exBooking1, exBooking2]
     (by intro a ha; exact absurd ha (List.not_mem_nil a)) (by simp) (by decide)⟩

/-! ## C3 and C8: the submission flow around the insert -/

/-- C3: when the booking insert fails, a 23505 (uniqueness violation)
produces the slot-unavailable toast, a return to the time step and a
re-read of the taken slots for the date (`fetchBookedSlots`, the
non-cancelled appointments of the date); any other failure produces the
generic booking-failure toast; in both cases no notification call is
attempted and the store is unchanged. -/
theorem C3_insert_failure_handling (db : List Appointment) (d t : String) (fd : FormData)
    (env : SubmitEnv) (code : String)
    (hname : ¬(fd.name = ""))
    (hemail : validateEmail fd.email = true)
    (hfail : dbInsert db (mkRow env.newId d t fd) env.envFail = .error code) :
    (handleSubmit db (some d) (some t) fd env).db = db ∧
    (handleSubmit db (some d) (some t) fd env).emailAttempted = false ∧
    (handleSubmit db (some d) (some t) fd env).smsAttempted = false ∧
    (code = "23505" →
      (handleSubmit db (some d) (some t) fd env).toastTitle = "Slot Unavailable" ∧
      (handleSubmit db (some d) (some t) fd env).step = "time" ∧
      (handleSubmit db (some d) (some t) fd env).refetchedSlots =
        some (fetchBookedSlots db d)) ∧
    (¬(code = "23505") →
      (handleSubmit db (some d) (some t) fd env).toastTitle = "Booking Failed" ∧
      (handleSubmit db (some d) (some t) fd env).step = "details" ∧
      (handleSubmit db (some d) (some t) fd env).refetchedSlots = none) := by
  have hemail_ne : ¬(fd.email = "") := by
    intro hcon
    rw [hcon] at hemail
    exact absurd hemail (by decide)
  have hh : handleSubmit db (some d) (some t) fd env =
      if code == "23505" then
        ⟨db, "time", "Slot Unavailable", some (fetchBookedSlots db d),
          false, false, false, false, none⟩
      else ⟨db, "details", "Booking Failed", none, false, false, false, false, none⟩ := by
    simp only [handleSubmit]
    simp [hname, hemail_ne, hemail, hfail]
  rw [hh]
  by_cases hc : code = "23505"
  · subst hc
    simp
  · simp [hc]

/-- Witness for C3 at a concrete occupied slot. -/
theorem C3_insert_failure_handling_witness :
    ¬(exForm2.name = "") ∧ validateEmail exForm2.email = true ∧
    dbInsert [exBooking1] (mkRow "33333333-cccc" "2026-01-05" "10:00" exForm2) none =
      .error "23505" ∧
    (handleSubmit [exBooking1] (some "2026-01-05") (some "10:00") exForm2
      ⟨none, "33333333-cccc", false, false⟩).toastTitle = "Slot Unavailable" := by
  refine ⟨by decide, by decide, rfl, ?_⟩
  exact ((C3_insert_failure_handling [exBooking1] "2026-01-05" "10:00" exForm2
    ⟨none, "33333333-cccc", false, false⟩ "23505" (by decide) (by decide) rfl).2.2.2.1 rfl).1

/-- C8: when the insert succeeds, both notification calls are attempted
whatever their outcomes, the flow reaches the success step, and the
committed row (status `pending`) is in the store — the result is the same
record for every combination of notification failures, so neither call
affects the other or the booking. -/
theorem C8_notification_independence (db : List Appointment) (d t : String) (fd : FormData)
    (env : SubmitEnv)
    (hname : ¬(fd.name = ""))
    (hemail : validateEmail fd.email = true)
    (hfree : uniqueViolation db d t = false)
    (henv : env.envFail = none) :
    handleSubmit db (some d) (some t) fd env =
      ⟨db ++ [mkRow env.newId d t fd], "success", "Appointment Booked!", none,
        true, !env.emailCallFails, true, !env.smsCallFails,
        some (shortBookingId env.newId)⟩ ∧
    (mkRow env.newId d t fd).status = "pending" := by
  have hemail_ne : ¬(fd.email = "") := by
    intro hcon
    rw [hcon] at hemail
    exact absurd hemail (by decide)
  refine ⟨?_, rfl⟩
  simp only [handleSubmit]
  simp [hname, hemail_ne, hemail, dbInsert, mkRow, statusAllowed, hfree, henv]

/-- Witness for C8 with a failing SMS call: the row is committed with
status pending, both calls attempted, success step reached. -/
theorem C8_notification_independence_witness :
    uniqueViolation [] "2026-01-05" "10:00" = false ∧
    handleSubmit [] (some "2026-01-05") (some "10:00") exForm1
        ⟨none, "11111111-aaaa", false, true⟩ =
      ⟨[] ++ [mkRow "11111111-aaaa" "2026-01-05" "10:00" exForm1], "success",
        "Appointment Booked!", none, true, !false, true, !true,
        some (shortBookingId "11111111-aaaa")⟩ :=
  ⟨rfl, (C8_notification_independence [] "2026-01-05" "10:00" exForm1
    ⟨none, "11111111-aaaa", false, true⟩ (by decide) (by decide) rfl rfl).1⟩

/-! ## C4: coupon application -/

theorem couponRow_mem {l : List Coupon} {code : String} {c : Coupon}
    (h : couponRow l code = some c) : c ∈ l :=
  List.mem_of_find?_eq_some h

theorem couponRow_code {l : List Coupon} {code : String} {c : Coupon}
    (h : couponRow l code = some c) : c.code = code := by
  have h2 := List.find?_some h
  simpa using h2

/-- With unique codes, any row carrying the looked-up code is the found
row. -/
theorem coupon_eq_of_code {l : List Coupon} {code : String} {c a : Coupon}
    (hwf : CouponCodesUnique l) (hrow : couponRow l code = some c)
    (ha : a ∈ l) (hac : a.code = code) : a = c := by
  by_contra hne
  have hc_mem := couponRow_mem hrow
  have hc_code := couponRow_code hrow
  have hsym : Symmetric (fun x y : Coupon => x.code ≠ y.code) :=
    fun x y hxy h2 => hxy h2.symm
  have h3 := List.Pairwise.forall hsym hwf ha hc_mem hne
  exact h3 (hac.trans hc_code.symm)

theorem filter_eq_singleton_of {α : Type} (l : List α) (p : α → Bool) (c : α)
    (hnd : l.Nodup) (hc : c ∈ l) (hpc : p c = true)
    (hothers : ∀ a ∈ l, a ≠ c → p a = false) : l.filter p = [c] := by
  induction l with
  | nil => cases hc
  | cons x xs ih =>
      rcases List.mem_cons.mp hc with heq | hx
      · subst heq
        rw [List.filter_cons, if_pos hpc]
        have hnil : xs.filter p = [] := by
          rw [List.filter_eq_nil_iff]
          intro a ha
          have hane : a ≠ c := by
            rintro rfl
            exact (List.nodup_cons.mp hnd).1 ha
          simp [hothers a (List.mem_cons_of_mem c ha) hane]
        rw [hnil]
      · have hxc : x ≠ c := by
          rintro rfl
          exact (List.nodup_cons.mp hnd).1 hx
        rw [List.filter_cons, if_neg]
        · exact ih (List.nodup_cons.mp hnd).2 hx
            (fun a ha hane => hothers a (List.mem_cons_of_mem x ha) hane)
        · simp [hothers x (List.mem_cons_self x xs) hxc]

/-- Claim C4 as stated fails: the admin SELECT policy also applies to the
booking page's query, so a caller holding the admin role gets an expired
(but still active) coupon applied. -/
theorem C4_counterexample : ¬C4Statement := by
  intro h
  have hwf : CouponCodesUnique [exExpiredCoupon] := List.pairwise_singleton _ _
  have hrow : couponRow [exExpiredCoupon] (jsToUpper (jsTrim "SAVE10")) =
      some exExpiredCoupon := rfl
  have h1 := (h true 200 [exExpiredCoupon] "SAVE10" exExpiredCoupon hwf hrow).1
    (Or.inr ⟨100, rfl, by norm_num⟩) exExpiredCoupon
  exact h1 rfl

/-- C4 amended: for callers without the admin role an inactive or expired
(`expires_at ≤ now`) code is never applied; an active, unexpired,
nonempty code is applied for every caller, and the displayed total is
exactly `round(p * (1 - d/100))`. -/
theorem C4_amended (now : Nat) (coupons : List Coupon) (input : String) (c : Coupon)
    (hwf : CouponCodesUnique coupons)
    (hrow : couponRow coupons (jsToUpper (jsTrim input)) = some c) :
    ((c.is_active = false ∨ ∃ e, c.expires_at = some e ∧ e ≤ now) →
      ∀ c2, handleApplyCoupon false now coupons input ≠ .applied c2) ∧
    ((c.is_active = true ∧ (∀ e, c.expires_at = some e → now < e) ∧
        ¬(jsTrim input = "")) →
      ∀ callerIsAdmin, handleApplyCoupon callerIsAdmin now coupons input = .applied c ∧
        ∀ p : ℚ, getDiscountedPrice p (some c) = specDiscountedTotal p c.discount_percent) := by
  constructor
  · intro hbad c2 hap
    simp only [handleApplyCoupon] at hap
    by_cases hemp : (jsTrim input == "") = true
    · rw [if_pos hemp] at hap
      exact ApplyResult.noConfusion hap
    · rw [if_neg hemp] at hap
      have hfil : coupons.filter (fun c0 =>
          couponVisibleTo false now c0 &&
          c0.code == jsToUpper (jsTrim input) && c0.is_active) = [] := by
        rw [List.filter_eq_nil_iff]
        intro a ha hcon
        rw [Bool.and_eq_true, Bool.and_eq_true, beq_iff_eq] at hcon
        obtain ⟨⟨hvis, hcode⟩, hact⟩ := hcon
        have hae : a = c := coupon_eq_of_code hwf hrow ha hcode
        subst hae
        rw [couponVisibleTo, Bool.false_or, couponPubliclyVisible,
          Bool.and_eq_true] at hvis
        rcases hbad with hin | ⟨e, he, hle⟩
        · rw [hin] at hvis
          exact absurd hvis.1 (by decide)
        · have h2 := hvis.2
          rw [he] at h2
          simp only [Option.isNone_some, Bool.false_or, Option.getD_some,
            decide_eq_true_eq] at h2
          omega
      rw [hfil] at hap
      exact ApplyResult.noConfusion hap
  · rintro ⟨hact, hexp, hne⟩ callerIsAdmin
    have hnd : coupons.Nodup :=
      hwf.imp (fun hcd heq => hcd (congrArg Coupon.code heq))
    have hvis : couponVisibleTo callerIsAdmin now c = true := by
      rw [couponVisibleTo]
      cases callerIsAdmin
      · rw [Bool.false_or, couponPubliclyVisible, hact]
        cases hE : c.expires_at with
        | none => simp
        | some e => simp [hexp e hE]
      · rfl
    have hfil : coupons.filter (fun c0 =>
        couponVisibleTo callerIsAdmin now c0 &&
        c0.code == jsToUpper (jsTrim input) && c0.is_active) = [c] := by
      refine filter_eq_singleton_of coupons _ c hnd (couponRow_mem hrow) ?_ ?_
      · simp [hvis, couponRow_code hrow, hact]
      · intro a ha hane
        by_contra hcon
        rw [Bool.not_eq_false, Bool.and_eq_true, Bool.and_eq_true,
          beq_iff_eq] at hcon
        exact hane (coupon_eq_of_code hwf hrow ha hcon.1.2)
    constructor
    · simp only [handleApplyCoupon]
      rw [if_neg (by simpa using hne), hfil]
    · intro p
      rfl

/-- Witness for the amended C4: an active, unexpired coupon entered with
surrounding whitespace and lower case is applied for a non-admin caller
with the rounded discounted total. -/
theorem C4_amended_witness :
    CouponCodesUnique [exLiveCoupon] ∧
    couponRow [exLiveCoupon] (jsToUpper (jsTrim " new20 ")) = some exLiveCoupon ∧
    handleApplyCoupon false 200 [exLiveCoupon] " new20 " = .applied exLiveCoupon ∧
    getDiscountedPrice 999 (some exLiveCoupon) = specDiscountedTotal 999 20 := by
  have hwf : CouponCodesUnique [exLiveCoupon] := List.pairwise_singleton _ _
  have hres := (C4_amended 200 [exLiveCoupon] " new20 " exLiveCoupon hwf rfl).2
    ⟨rfl, by intro e he; simp [exLiveCoupon] at he; omega, by decide⟩ false
  exact ⟨hwf, rfl, hres.1, hres.2 999⟩

/-! ## C5, C6: the client-deployment handler -/

/-- An authenticated super-admin request reaches the dispatch. -/
theorem clientDeployment_auth {ctx : AuthCtx} (st : DeployState) (act : DeployAction)
    (h : authOK ctx = true) :
    clientDeployment ctx st act = deployDispatch (ctxUser ctx) st act := by
  rcases ctx with ⟨hh, u, sa⟩
  cases hh with
  | false => simp [authOK] at h
  | true =>
      cases u with
      | none => simp [authOK] at h
      | some uid =>
          cases sa with
          | false => simp [authOK] at h
          | true => rfl

/-- A request failing the authentication gate changes nothing. -/
theorem clientDeployment_auth_fail {ctx : AuthCtx} (st : DeployState) (act : DeployAction)
    (h : ¬(authOK ctx = true)) :
    (clientDeployment ctx st act).2 = st := by
  rcases ctx with ⟨hh, u, sa⟩
  cases hh with
  | false => rfl
  | true =>
      cases u with
      | none => rfl
      | some uid =>
          cases sa with
          | false => rfl
          | true => exact absurd rfl h

/-- Claim C5 as stated fails: `get_credentials` succeeds (status 200)
without writing any audit-log row. -/
theorem C5_counterexample : ¬C5Statement := by
  intro h
  have h2 := h exCtx initialDeployState .getCreds (by decide) (by decide) (by decide)
    (by decide)
  exact absurd h2 (by decide)

/-- C5 amended: under an authenticated super-admin request,
`save_credentials` (valid params), `test_connection` (credentials present,
no exception), `initialize_database` (connection tested) and
`delete_credentials` each append exactly the one audit row recording the
action; `get_credentials` never writes one, and neither does a
`test_connection` whose try block throws. -/
theorem C5_audit_rows (ctx : AuthCtx) (st : DeployState) (act : DeployAction)
    (hauth : authOK ctx = true) :
    (clientDeployment ctx st act).2.audit =
      st.audit ++ (if writesAudit st act then [⟨ctxUser ctx, auditName act⟩] else []) := by
  rw [clientDeployment_auth st act hauth]
  rcases st with ⟨creds, audit⟩
  cases act with
  | save url anonKey serviceKey meta =>
      by_cases hp : (url == "" || anonKey == "" || serviceKey == "") = true
      · simp [deployDispatch, saveCredentialsAction, writesAudit, hp]
      · simp [deployDispatch, saveCredentialsAction, writesAudit, logAudit, auditName, hp]
  | getCreds => simp [deployDispatch, getCredentialsAction, writesAudit]
  | testConn env =>
      cases creds with
      | none => simp [deployDispatch, testConnectionAction, writesAudit]
      | some cr =>
          by_cases hth : env.throws = true
          · simp [deployDispatch, testConnectionAction, writesAudit, hth]
          · by_cases hok : connectionSuccess env.queryError = true
            · simp [deployDispatch, testConnectionAction, writesAudit, logAudit,
                auditName, hth, hok]
            · simp [deployDispatch, testConnectionAction, writesAudit, logAudit,
                auditName, hth, hok]
  | initDb env =>
      cases creds with
      | none => simp [deployDispatch, initDatabaseAction, writesAudit]
      | some cr =>
          by_cases hcs : (cr.connection_status == "connected") = true
          · by_cases hth : env.throws = true
            · simp [deployDispatch, initDatabaseAction, writesAudit, logAudit,
                auditName, hcs, hth]
            · simp [deployDispatch, initDatabaseAction, writesAudit, logAudit,
                auditName, hcs, hth]
          · simp [deployDispatch, initDatabaseAction, writesAudit, hcs]
  | deleteCreds =>
      simp [deployDispatch, deleteCredentialsAction, writesAudit, logAudit, auditName]
  | invalidAction => simp [deployDispatch, writesAudit]

/-- Witness for the amended C5 at a concrete delete action. -/
theorem C5_audit_rows_witness :
    (clientDeployment exCtx initialDeployState .deleteCreds).2.audit =
      initialDeployState.audit ++
        (if writesAudit initialDeployState .deleteCreds then
          [⟨ctxUser exCtx, auditName .deleteCreds⟩] else []) :=
  C5_audit_rows exCtx initialDeployState .deleteCreds rfl

/-- C6: no response of the `get_credentials` action ever carries the
`supabase_service_role_key_encrypted` field, whatever the caller; and the
selected columns are exactly the nine non-secret columns of the table. -/
theorem C6_no_secret_in_get_credentials :
    (∀ (ctx : AuthCtx) (st : DeployState),
      "supabase_service_role_key_encrypted" ∉
        (respFields (clientDeployment ctx st .getCreds).1).map Prod.fst) ∧
    (∀ cr : ClientCredentials,
      (selectedColumns cr).map Prod.fst =
        ["id", "supabase_url", "supabase_anon_key", "connection_status", "db_initialized",
         "last_connection_test", "last_initialized_at", "created_at", "updated_at"] ∧
      ∀ n ∈ (selectedColumns cr).map Prod.fst,
        n ∈ clientCredentialsColumns ∧ ¬(n = "supabase_service_role_key_encrypted")) := by
  constructor
  · intro ctx st
    rcases ctx with ⟨hh, u, sa⟩
    rcases st with ⟨creds, audit⟩
    cases hh <;> cases sa <;> rcases u with _ | uid <;> cases creds <;>
      simp [clientDeployment, deployDispatch, getCredentialsAction, respFields,
        selectedColumns]
  · intro cr
    refine ⟨rfl, ?_⟩
    intro n hn
    simp only [selectedColumns, List.map_cons, List.map_nil, List.mem_cons,
      List.not_mem_nil, or_false] at hn
    rcases hn with rfl | rfl | rfl | rfl | rfl | rfl | rfl | rfl | rfl <;>
      exact ⟨by decide, by decide⟩

/-! ## C7: the delete-user self-deletion guard -/

/-- C7: an authenticated admin (or super admin) calling delete-user with
their own identifier receives status 400 and every table — sessions,
permissions, roles, profiles, auth users — is unchanged. -/
theorem C7_self_deletion_guard (ctx : DeleteCtx) (db : UserDB) (uid role : String)
    (authDeleteFails : Bool)
    (hh : ctx.hasAuthHeader = true) (hu : ctx.tokenUser = some uid)
    (hr : ctx.roleRow = some role)
    (hrole : role = "admin" ∨ role = "super_admin") :
    deleteUserHandler ctx (some uid) authDeleteFails db = (400, db) := by
  rcases ctx with ⟨h1, u1, r1⟩
  simp only at hh hu hr
  subst hh hu hr
  rcases hrole with rfl | rfl <;> simp [deleteUserHandler]

/-- Witness for C7: a concrete admin deleting themselves. -/
theorem C7_self_deletion_guard_witness :
    deleteUserHandler ⟨true, some "admin-7", some "admin"⟩ (some "admin-7") false
      ⟨["admin-7"], ["admin-7"], ["admin-7"], ["admin-7"], ["admin-7", "u2"]⟩ =
      (400, ⟨["admin-7"], ["admin-7"], ["admin-7"], ["admin-7"], ["admin-7", "u2"]⟩) :=
  C7_self_deletion_guard ⟨true, some "admin-7", some "admin"⟩
    ⟨["admin-7"], ["admin-7"], ["admin-7"], ["admin-7"], ["admin-7", "u2"]⟩
    "admin-7" "admin" false rfl rfl rfl (Or.inl rfl)

/-! ## C10: initialization only after a successful connection test -/

theorem runDeploy_append (l : List (AuthCtx × DeployAction)) (x : AuthCtx × DeployAction) :
    runDeploy (l ++ [x]) = (clientDeployment x.1 (runDeploy l) x.2).2 := by
  simp [runDeploy, List.foldl_append]

/-- Backward scan: whenever a trace ends in a state whose stored
credentials have `connection_status = 'connected'`, a successful
`test_connection` happened after the most recent credential save. -/
theorem tss_aux : ∀ (racts : List (AuthCtx × DeployAction)),
    initGuard (runDeploy racts.reverse) = true → testedSinceSave racts = true := by
  intro racts
  induction racts with
  | nil =>
      intro h
      exact absurd h (by decide)
  | cons x rs ih =>
      intro h
      rw [List.reverse_cons, runDeploy_append] at h
      rcases x with ⟨ctx, act⟩
      by_cases hauth : authOK ctx = true
      · rw [clientDeployment_auth (runDeploy rs.reverse) act hauth] at h
        cases act with
        | save url anonKey serviceKey meta =>
            by_cases hp : (url == "" || anonKey == "" || serviceKey == "") = true
            · rw [show (deployDispatch (ctxUser ctx) (runDeploy rs.reverse)
                  (.save url anonKey serviceKey meta)).2 = runDeploy rs.reverse from by
                simp [deployDispatch, saveCredentialsAction, hp]] at h
              simp only [testedSinceSave, hauth, if_true, hp]
              exact ih h
            · simp [deployDispatch, saveCredentialsAction, logAudit, initGuard, hp] at h
        | getCreds =>
            simp only [deployDispatch, getCredentialsAction] at h
            simp only [testedSinceSave, hauth, if_true]
            exact ih h
        | testConn env =>
            by_cases hsucc : (!env.throws && connectionSuccess env.queryError) = true
            · simp [testedSinceSave, hauth, hsucc]
            · have hres : testedSinceSave ((ctx, DeployAction.testConn env) :: rs) =
                  testedSinceSave rs := by
                simp [testedSinceSave, hauth, hsucc]
              rw [hres]
              cases hcr : (runDeploy rs.reverse).creds with
              | none =>
                  rw [show (deployDispatch (ctxUser ctx) (runDeploy rs.reverse)
                      (.testConn env)).2 = runDeploy rs.reverse from by
                    simp [deployDispatch, testConnectionAction, hcr]] at h
                  exact ih h
              | some cr =>
                  by_cases hth : env.throws = true
                  · simp [deployDispatch, testConnectionAction, hcr, hth, initGuard] at h
                  · have hcs : connectionSuccess env.queryError = false := by
                      revert hsucc
                      cases connectionSuccess env.queryError <;> simp [hth]
                    simp [deployDispatch, testConnectionAction, logAudit, hcr, hth,
                      hcs, initGuard] at h
        | initDb env =>
            have hres : testedSinceSave ((ctx, DeployAction.initDb env) :: rs) =
                testedSinceSave rs := by
              simp [testedSinceSave, hauth]
            rw [hres]
            cases hcr : (runDeploy rs.reverse).creds with
            | none =>
                rw [show (deployDispatch (ctxUser ctx) (runDeploy rs.reverse)
                    (.initDb env)).2 = runDeploy rs.reverse from by
                  simp [deployDispatch, initDatabaseAction, hcr]] at h
                exact ih h
            | some cr =>
                by_cases hcs : (cr.connection_status == "connected") = true
                · exact ih (by simp [initGuard, hcr, hcs])
                · rw [show (deployDispatch (ctxUser ctx) (runDeploy rs.reverse)
                      (.initDb env)).2 = runDeploy rs.reverse from by
                    simp [deployDispatch, initDatabaseAction, hcr, hcs]] at h
                  exact ih h
        | deleteCreds =>
            simp [deployDispatch, deleteCredentialsAction, logAudit, initGuard] at h
        | invalidAction =>
            simp only [deployDispatch] at h
            simp only [testedSinceSave, hauth, if_true]
            exact ih h
      · rw [clientDeployment_auth_fail (runDeploy rs.reverse) act hauth] at h
        simp only [testedSinceSave, hauth, if_false]
        exact ih h

/-- C10: a successful `save_credentials` stores the row with
`connection_status = 'not_tested'` and `db_initialized = false`;
`initialize_database` proceeds past its guard exactly when the stored
status is `connected`; and on any request trace from the empty state, if
the guard holds then a successful `test_connection` occurred after the
most recent credential save — so initialization never runs against
credentials that were not tested since they were last saved. -/
theorem C10_init_requires_tested_credentials :
    (∀ (ctx : AuthCtx) (st : DeployState) (url anonKey serviceKey : String) (meta : RowMeta),
      authOK ctx = true → ¬(url = "") → ¬(anonKey = "") → ¬(serviceKey = "") →
      ∃ row, (clientDeployment ctx st (.save url anonKey serviceKey meta)).2.creds =
          some row ∧
        row.connection_status = "not_tested" ∧ row.db_initialized = false) ∧
    (∀ (ctx : AuthCtx) (st : DeployState) (env : InitEnv),
      authOK ctx = true →
      (¬((clientDeployment ctx st (.initDb env)).1.status = 400) ↔ initGuard st = true)) ∧
    (∀ acts, initGuard (runDeploy acts) = true → testedSinceSave acts.reverse = true) := by
  refine ⟨?_, ?_, ?_⟩
  · intro ctx st url anonKey serviceKey meta hauth h1 h2 h3
    rw [clientDeployment_auth st _ hauth]
    simp only [deployDispatch, saveCredentialsAction]
    rw [if_neg (by simp [h1, h2, h3])]
    exact ⟨_, rfl, rfl, rfl⟩
  · intro ctx st env hauth
    rw [clientDeployment_auth st _ hauth]
    cases hcr : st.creds with
    | none => simp [deployDispatch, initDatabaseAction, hcr, initGuard]
    | some cr =>
        by_cases hcs : (cr.connection_status == "connected") = true
        · by_cases hth : env.throws = true
          · simp [deployDispatch, initDatabaseAction, hcr, hcs, hth, initGuard]
          · simp [deployDispatch, initDatabaseAction, hcr, hcs, hth, initGuard]
        · simp [deployDispatch, initDatabaseAction, hcr, hcs, initGuard]
  · intro acts h
    apply tss_aux
    rw [List.reverse_reverse]
    exact h

/-- Witness for C10: the save postcondition, the guard equivalence on the
empty state, and the scan on a concrete save-then-test trace whose final
state passes the guard. -/
theorem C10_init_requires_tested_credentials_witness :
    (∃ row, (clientDeployment exCtx initialDeployState
        (.save "https://client.example.co" "anon-key" "service-key" exMeta)).2.creds =
          some row ∧
      row.connection_status = "not_tested" ∧ row.db_initialized = false) ∧
    (¬((clientDeployment exCtx initialDeployState
        (.initDb ⟨false, "t2"⟩)).1.status = 400) ↔ initGuard initialDeployState = true) ∧
    (initGuard (runDeploy exTrace) = true ∧ testedSinceSave exTrace.reverse = true) :=
  ⟨C10_init_requires_tested_credentials.1 exCtx initialDeployState
      "https://client.example.co" "anon-key" "service-key" exMeta rfl
      (by decide) (by decide) (by decide),
   C10_init_requires_tested_credentials.2.1 exCtx initialDeployState ⟨false, "t2"⟩ rfl,
   by decide,
   C10_init_requires_tested_credentials.2.2 exTrace (by decide)⟩

end KrishnaTech
